import Mathlib

/-!
Verification of the whatrecord frontend store (src/frontend/src/store.js).

The file shallowly embeds the two Vuex stores (`remote_store` and
`cached_local_store`) as pure Lean functions.  JavaScript objects are
modelled as association lists in insertion order (`Object.keys`,
`Object.values` and `Object.entries` iterate the non-integer-like keys of
a plain object in insertion order, and PV/IOC names are non-integer-like
strings).  A thrown JavaScript error is modelled by `Except JsError`;
mutations that happened before the throw are kept in the returned state,
matching in-place mutation of the store state.  `async`/`await` code runs
on a single logical thread, so each action is a sequential function of the
state.  The network (`axios.get`) and the snapshot fetch are explicit
oracle parameters.
-/

namespace Whatrecord

/-- A thrown JavaScript error, by class. -/
inductive JsError
  | typeError
  | referenceError
  deriving DecidableEq, Repr

/-- Association-list lookup, first binding wins (JavaScript property read:
an object has at most one binding per key). -/
def lookupStr {α : Type} (k : String) : List (String × α) → Option α
  | [] => none
  | (k', v) :: t => if k' = k then some v else lookupStr k t

/-- Association-list write (JavaScript `obj[k] = v`): an existing key keeps
its position, a new key is appended at the end, matching object key
insertion order. -/
def setStr {α : Type} (k : String) (v : α) : List (String × α) → List (String × α)
  | [] => [(k, v)]
  | (k', v') :: t => if k' = k then (k', v) :: t else (k', v') :: setStr k v t

/-! ## QueryTracker (the start_query / end_query mutations)

Both stores define the same two mutations (store.js lines 23-34 and
344-355) over the state fields `queries_in_progress` (a number, modelled
as `Int` so that non-negativity is a statement and not a typing artifact)
and `query_in_progress` (a boolean). -/

/-- The tracker fields of a store state. -/
structure QueryState where
  queries_in_progress : Int
  query_in_progress : Bool
  deriving DecidableEq, Repr

/-- The initial tracker state of both stores (store.js lines 17-18). -/
def QueryState.init : QueryState := { queries_in_progress := 0, query_in_progress := false }

/-- `start_query` mutation: increment the counter, set the busy flag. -/
def QueryState.start_query (s : QueryState) : QueryState :=
  { queries_in_progress := s.queries_in_progress + 1, query_in_progress := true }

/-- `end_query` mutation: decrement the counter only when it is positive,
then clear the busy flag when the (new) counter is zero. -/
def QueryState.end_query (s : QueryState) : QueryState :=
  let n := if 0 < s.queries_in_progress then s.queries_in_progress - 1
           else s.queries_in_progress
  { queries_in_progress := n,
    query_in_progress := if n = 0 then false else s.query_in_progress }

/-- One tracker mutation. -/
inductive QOp
  | start_op
  | end_op
  deriving DecidableEq, Repr

/-- Apply one tracker mutation. -/
def QueryState.applyOp (s : QueryState) : QOp → QueryState
  | QOp.start_op => s.start_query
  | QOp.end_op => s.end_query

/-- Apply a finite sequence of tracker mutations in order. -/
def QueryState.applyOps (s : QueryState) (ops : List QOp) : QueryState :=
  ops.foldl QueryState.applyOp s

/-- The tracker invariant: the in-flight count is non-negative and the
busy flag holds exactly when the count is positive. -/
def QInv (s : QueryState) : Prop :=
  0 ≤ s.queries_in_progress ∧ (s.query_in_progress = true ↔ 0 < s.queries_in_progress)

instance : DecidablePred QInv := fun s => by
  unfold QInv; infer_instance

/-! ## Snapshot data model

The cached snapshot document (served as /cache.json.gz) has top-level keys
`iocs` (IOC name → { md, ioc: { shell_state: { database, pva_database,
database_definition } } }) and `files`.  Either key can be absent — in
particular the fallback document `{}` returned by
`load_cached_whatrecord_data` after a failed fetch — so both are `Option`s;
reading a property of the resulting `undefined` throws a `TypeError`. -/

/-- A traditional (V3) record instance; the store reads its
`record_type` property (store.js line 539). -/
structure RecordInstance where
  record_type : String
  deriving DecidableEq, Repr

/-- A PVA group record; opaque to the store, carried wholesale. -/
structure GroupRecord where
  data : String
  deriving DecidableEq, Repr

/-- A record-type definition, opaque to the store. -/
structure RecordTypeDef where
  data : String
  deriving DecidableEq, Repr

/-- IOC metadata (`md`), opaque to the store. -/
structure IocMetadata where
  name : String
  deriving DecidableEq, Repr

/-- The database-definition table of an IOC's shell state. -/
structure DatabaseDefinition where
  record_types : List (String × RecordTypeDef)
  deriving DecidableEq, Repr

/-- `ioc.shell_state`: the two record namespaces and the optional
database definition (`database_definition` may be null). -/
structure ShellState where
  database : List (String × RecordInstance)
  pva_database : List (String × GroupRecord)
  database_definition : Option DatabaseDefinition
  deriving DecidableEq, Repr

/-- The `ioc` member of a snapshot IOC entry. -/
structure Ioc where
  shell_state : ShellState
  deriving DecidableEq, Repr

/-- One value of the snapshot's `iocs` mapping: metadata plus parsed IOC. -/
structure IocInfo where
  md : IocMetadata
  ioc : Ioc
  deriving DecidableEq, Repr

/-- One value of the snapshot's `files` mapping: an optional structured
script (opaque payload) and optional raw lines. -/
structure CachedFileInfo where
  script : Option String
  lines : Option (List String)
  deriving DecidableEq, Repr

/-- The snapshot document.  Both top-level keys may be absent. -/
structure Cache where
  iocs : Option (List (String × IocInfo))
  files : Option (List (String × CachedFileInfo))
  deriving DecidableEq, Repr

/-- The fallback snapshot value: the plain object literal returned by the
catch branch of `load_cached_whatrecord_data` (store.js line 428), which
has neither an `iocs` nor a `files` key. -/
def Cache.empty : Cache := { iocs := none, files := none }

/-! ## Per-PV record info results (`record_info` values) -/

/-- The `record` member of a whatrec entry: an optional record-type
definition and an optional record instance (`instance` in the source;
renamed because `instance` is a Lean keyword). -/
structure RecordView where
  definition : Option RecordTypeDef
  instance_ : Option RecordInstance
  deriving DecidableEq, Repr

/-- One whatrec entry built by `get_record_info` (store.js lines 533-544
and 559-567). -/
structure WhatRec where
  name : String
  ioc : IocMetadata
  record : RecordView
  pva_group : Option GroupRecord
  deriving DecidableEq, Repr

/-- The value committed under `record_info[record_name]` (store.js lines
547 and 570): `{ pv_name, present, info }`. -/
structure RecordInfoResult where
  pv_name : String
  present : Bool
  info : List WhatRec
  deriving DecidableEq, Repr

/-- One element of the list committed by `get_ioc_records` (store.js line
588): either a traditional record value or a PVA group record value. -/
inductive RecOrGroup
  | v3 (r : RecordInstance)
  | v4 (g : GroupRecord)
  deriving DecidableEq, Repr

/-- One synthesized per-line entry of the file-info fallback (store.js
lines 608-613). -/
structure LineEntry where
  context : List (String × Nat)
  line : String
  deriving DecidableEq, Repr

/-- A synthesized script object (store.js line 614). -/
structure SynthScript where
  path : String
  lines : List LineEntry
  deriving DecidableEq, Repr

/-- The value committed under `file_info[filename]`: either the cached
file-info object itself (store.js line 605) or the synthesized
`{ script, ioc: null }` object (store.js line 617). -/
inductive FileInfo
  | cached (c : CachedFileInfo)
  | synthesized (script : SynthScript)
  deriving DecidableEq, Repr

/-! ## PatternMatcher

Glob mode uses the wildcard-match package (`wcmatch(pattern)` at store.js
line 707).  We model its behaviour on the fragment the store exercises:
`*` (any run of non-separator characters), `?` (one non-separator
character) and literal characters, anchored to the whole name; the
default separator is `/`.  The empty pattern matches only the empty
name. -/

/-- The suffixes of a name reachable by consuming a (possibly empty) run
of non-separator characters — the ways a `*` can advance. -/
def nonSepSuffixes : List Char → List (List Char)
  | [] => [[]]
  | c :: cs => (c :: cs) :: (if c = '/' then [] else nonSepSuffixes cs)

/-- Anchored glob match of a pattern against a name, character lists:
`*` consumes any run of non-separator characters, `?` exactly one. -/
def globMatch : List Char → List Char → Bool
  | [], s => s.isEmpty
  | '*' :: ps, s => (nonSepSuffixes s).any (fun t => globMatch ps t)
  | '?' :: ps, s =>
      match s with
      | [] => false
      | c :: cs => (c != '/') && globMatch ps cs
  | p :: ps, s =>
      match s with
      | [] => false
      | c :: cs => (p == c) && globMatch ps cs

/-- The glob matcher produced by `wcmatch(pattern)` as a string predicate. -/
def wcTest (pattern name : String) : Bool := globMatch pattern.data name.data

/-! Regex mode compiles the string with `new RegExp(pattern)` and tests
names with `re.test(name)` (store.js lines 699-701).  We model the regular
expression fragment the store's patterns fall in: literal characters, `.`,
and the postfix `*` quantifier; a quantifier with nothing to repeat is a
`SyntaxError` (the constructor throws, caught at store.js line 702).
`RegExp.prototype.test` is unanchored: it succeeds when any substring of
the name matches. -/

/-- Regular expression abstract syntax (with the derivative-closure
constructors `nul` and `alt`, never produced by the parser). -/
inductive Regex
  | nul
  | eps
  | anych
  | lit (c : Char)
  | star (r : Regex)
  | cat (r1 r2 : Regex)
  | alt (r1 r2 : Regex)
  deriving DecidableEq, Repr

/-- Does the regex accept the empty string? -/
def Regex.nullable : Regex → Bool
  | .nul => false
  | .eps => true
  | .anych => false
  | .lit _ => false
  | .star _ => true
  | .cat a b => a.nullable && b.nullable
  | .alt a b => a.nullable || b.nullable

/-- Brzozowski derivative with respect to one character. -/
def Regex.deriv (c : Char) : Regex → Regex
  | .nul => .nul
  | .eps => .nul
  | .anych => .eps
  | .lit d => if d = c then .eps else .nul
  | .star r => .cat (r.deriv c) (.star r)
  | .cat a b =>
      if a.nullable then .alt (.cat (a.deriv c) b) (b.deriv c)
      else .cat (a.deriv c) b
  | .alt a b => .alt (a.deriv c) (b.deriv c)

/-- Does some prefix of the character list match the regex? -/
def Regex.matchesPrefix : Regex → List Char → Bool
  | r, [] => r.nullable
  | r, c :: cs => r.nullable || Regex.matchesPrefix (r.deriv c) cs

/-- Unanchored `RegExp.prototype.test`: some substring matches. -/
def jsRegexTest (r : Regex) (name : String) : Bool :=
  name.data.tails.any (fun t => r.matchesPrefix t)

/-- One parsed atom: `.` is the any-character class, anything else a
literal (the store only ever builds patterns in this fragment). -/
def regexAtom (c : Char) : Regex := if c = '.' then .anych else .lit c

/-- Parse the pattern into a sequence of possibly-starred atoms; `none`
models the `RegExp` constructor throwing a `SyntaxError` (a quantifier
with nothing to repeat). -/
def parseRegexList : List Char → Option (List Regex)
  | [] => some []
  | '*' :: _ => none
  | c :: '*' :: rest => (parseRegexList rest).map (fun l => Regex.star (regexAtom c) :: l)
  | c :: rest => (parseRegexList rest).map (fun l => regexAtom c :: l)

/-- Parse a full pattern string into one regex, as `new RegExp(pattern)`. -/
def parseRegex (pattern : String) : Option Regex :=
  (parseRegexList pattern.data).map (fun l => l.foldr Regex.cat Regex.eps)

/-! ## Deduplication and sorting

`Array.from(new Set(matches)).sort()` (store.js line 731): a `Set` keeps
the first occurrence of each element in insertion order, and `sort()`
orders strings lexicographically by code unit, which for distinct strings
coincides with the `String` linear order. -/

/-- Deduplication with an accumulator of the elements already kept. -/
def dedupFirstAux (seen : List String) : List String → List String
  | [] => []
  | x :: xs =>
      if x ∈ seen then dedupFirstAux seen xs
      else x :: dedupFirstAux (x :: seen) xs

/-- `Array.from(new Set(l))`: keep the first occurrence of each element,
in insertion order. -/
def dedupFirst (l : List String) : List String := dedupFirstAux [] l

/-- Lexicographic comparison of character lists by code value, the order
`Array.prototype.sort` uses on strings. -/
def charsLe : List Char → List Char → Bool
  | [], _ => true
  | _ :: _, [] => false
  | a :: as, b :: bs =>
      decide (a.toNat < b.toNat) || (decide (a.toNat = b.toNat) && charsLe as bs)

/-- The default string order of `Array.prototype.sort`. -/
def strLe (a b : String) : Prop := charsLe a.data b.data = true

instance : DecidableRel strLe := fun a b => by
  unfold strLe; infer_instance

/-- `Array.prototype.sort` on strings.  Equal strings are identical, so
any sort w.r.t. `strLe` produces the same list as the engine's sort. -/
def sortStrings (l : List String) : List String :=
  List.insertionSort strLe l

/-- The list committed to the pattern cache (store.js line 731). -/
def sortedDedup (l : List String) : List String := sortStrings (dedupFirst l)

/-! ## cached_local_store (store.js lines 325-742)

State fields of the snapshot-backend store that its modelled actions read
or write; the remaining fields (`gateway_info`, `plugin_info`,
`plugin_nested_info`, `pv_relations`, `file_stream`) are only touched by
the unmodelled pass-through network actions and never by the actions the
claims are about. -/

structure LocalState where
  cache : Option Cache
  duplicates : List (String × List String)
  file_info : List (String × FileInfo)
  glob_to_pvs : List (String × List String)
  ioc_info : List IocMetadata
  ioc_to_records : List (String × List RecOrGroup)
  queries_in_progress : Int
  query_in_progress : Bool
  record_info : List (String × RecordInfoResult)
  regex_to_pvs : List (String × List String)
  deriving DecidableEq, Repr

/-- The initial store state (store.js lines 326-342). -/
def LocalState.init : LocalState :=
  { cache := none, duplicates := [], file_info := [], glob_to_pvs := [],
    ioc_info := [], ioc_to_records := [], queries_in_progress := 0,
    query_in_progress := false, record_info := [], regex_to_pvs := [] }

/-- The `start_query` mutation of `cached_local_store` (store.js 344-347),
identical to `remote_store`'s. -/
def LocalState.start_query (s : LocalState) : LocalState :=
  { s with queries_in_progress := s.queries_in_progress + 1,
           query_in_progress := true }

/-- The `end_query` mutation of `cached_local_store` (store.js 348-355). -/
def LocalState.end_query (s : LocalState) : LocalState :=
  let n := if 0 < s.queries_in_progress then s.queries_in_progress - 1
           else s.queries_in_progress
  { s with queries_in_progress := n,
           query_in_progress := if n = 0 then false else s.query_in_progress }

/-- `load_cached_whatrecord_data` (store.js 411-432).  `fetch` is the
outcome of the awaited `axios.get("/cache.json.gz")`: `some c` a decoded
snapshot, `none` a network/decode failure.  On a memo hit the state is
untouched; otherwise the tracker wraps the fetch and on failure the catch
branch returns the fallback `{}` without committing it (the memo stays
unset). -/
def load_cached_whatrecord_data (fetch : Option Cache) (s : LocalState) :
    LocalState × Cache :=
  match s.cache with
  | some c => (s, c)
  | none =>
    let s1 := s.start_query
    match fetch with
    | some c => (({ s1 with cache := some c }).end_query, c)
    | none => (s1.end_query, Cache.empty)

/-- `update_ioc_info` of `cached_local_store` (store.js 434-441).  After
an early memo return it yields the stored list; otherwise it projects
`md` out of every snapshot IOC entry — `Object.values(cache.iocs)` throws
a `TypeError` when the snapshot has no `iocs` key — commits it, and
returns `undefined`. -/
def update_ioc_info (fetch : Option Cache) (s : LocalState) :
    LocalState × Except JsError (Option (List IocMetadata)) :=
  if s.ioc_info.length > 0 then (s, .ok (some s.ioc_info))
  else
    match load_cached_whatrecord_data fetch s with
    | (s1, c) =>
      match c.iocs with
      | none => (s1, .error .typeError)
      | some iocs =>
        ({ s1 with ioc_info := iocs.map (fun p => p.2.md) }, .ok none)

/-- The whatrec entry built for a traditional-database hit (store.js
533-544): the record-type definition is looked up in the IOC's
`database_definition?.record_types`, falling back to null. -/
def v3_whatrec (record_name : String) (ii : IocInfo) (r : RecordInstance) : WhatRec :=
  { name := record_name, ioc := ii.md,
    record := { definition := ii.ioc.shell_state.database_definition.bind
                  (fun dd => lookupStr r.record_type dd.record_types),
                instance_ := some r },
    pva_group := none }

/-- The whatrec entry built for a PVA-database hit (store.js 559-567). -/
def v4_whatrec (record_name : String) (ii : IocInfo) (g : GroupRecord) : WhatRec :=
  { name := record_name, ioc := ii.md,
    record := { definition := none, instance_ := none },
    pva_group := some g }

/-- The per-IOC body of `get_record_info`'s scan loop (store.js 527-577):
a traditional hit commits a fresh single-entry result under the record
name, then a PVA hit commits another, each through `add_record_info`
(plain overwrite, store.js 400-402). -/
def record_info_step (record_name : String) (st : LocalState) (ii : IocInfo) : LocalState :=
  let st1 :=
    match lookupStr record_name ii.ioc.shell_state.database with
    | some r =>
      let res : RecordInfoResult :=
        { pv_name := record_name, present := true,
          info := [v3_whatrec record_name ii r] }
      { st with record_info := setStr record_name res st.record_info }
    | none => st
  match lookupStr record_name ii.ioc.shell_state.pva_database with
  | some g =>
    let res : RecordInfoResult :=
      { pv_name := record_name, present := true,
        info := [v4_whatrec record_name ii g] }
    { st1 with record_info := setStr record_name res st1.record_info }
  | none => st1

/-- `get_record_info` of `cached_local_store` (store.js 520-578).  The
early memo return yields the stored result; the scan path iterates
`Object.values(cache.iocs)` (throwing a `TypeError` when the `iocs` key is
absent) and returns `undefined`. -/
def get_record_info (fetch : Option Cache) (s : LocalState) (record_name : String) :
    LocalState × Except JsError (Option RecordInfoResult) :=
  match lookupStr record_name s.record_info with
  | some v => (s, .ok (some v))
  | none =>
    match load_cached_whatrecord_data fetch s with
    | (s1, c) =>
      match c.iocs with
      | none => (s1, .error .typeError)
      | some iocs =>
        (iocs.foldl (fun st p => record_info_step record_name st p.2) s1, .ok none)

/-- `get_ioc_records` (store.js 580-594): reads
`cache.iocs[ioc_name].ioc.shell_state` with no guard, so a missing `iocs`
key or an unknown IOC name throws a `TypeError`; otherwise it concatenates
the traditional and PVA record values, commits and returns them. -/
def get_ioc_records (fetch : Option Cache) (s : LocalState) (ioc_name : String) :
    LocalState × Except JsError (Option (List RecOrGroup)) :=
  match load_cached_whatrecord_data fetch s with
  | (s1, c) =>
    match c.iocs with
    | none => (s1, .error .typeError)
    | some iocs =>
      match lookupStr ioc_name iocs with
      | none => (s1, .error .typeError)
      | some ii =>
        let records :=
          ii.ioc.shell_state.database.map (fun p => RecOrGroup.v3 p.2) ++
          ii.ioc.shell_state.pva_database.map (fun p => RecOrGroup.v4 p.2)
        ({ s1 with ioc_to_records := setStr ioc_name records s1.ioc_to_records },
         .ok (some records))

/-- `get_file_info` (store.js 596-620): memo hit returns the stored info;
otherwise `cache.files[filename]` throws a `TypeError` when the snapshot
has no `files` key; a structured entry is committed as-is, a raw-lines
entry is synthesized into a per-line script numbered from 1, anything
else commits nothing; the scan path returns `undefined`. -/
def get_file_info (fetch : Option Cache) (s : LocalState) (filename : String) :
    LocalState × Except JsError (Option FileInfo) :=
  match lookupStr filename s.file_info with
  | some v => (s, .ok (some v))
  | none =>
    match load_cached_whatrecord_data fetch s with
    | (s1, c) =>
      match c.files with
      | none => (s1, .error .typeError)
      | some files =>
        match lookupStr filename files with
        | none => (s1, .ok none)
        | some cfi =>
          match cfi.script with
          | some _ =>
            ({ s1 with file_info := setStr filename (.cached cfi) s1.file_info },
             .ok none)
          | none =>
            match cfi.lines with
            | some ls =>
              let line_by_line := ls.enum.map
                (fun p => ({ context := [(filename, p.1 + 1)], line := p.2 } : LineEntry))
              let script : SynthScript := { path := filename, lines := line_by_line }
              ({ s1 with file_info := setStr filename (.synthesized script) s1.file_info },
               .ok none)
            | none => (s1, .ok none)

/-- One `dupes[pvname].push(iocname)` step, creating the key when absent
(store.js 631-634). -/
def push_owner (pv iocname : String) : List (String × List String) → List (String × List String)
  | [] => [(pv, [iocname])]
  | (k, v) :: t =>
    if k = pv then (k, v ++ [iocname]) :: t else (k, v) :: push_owner pv iocname t

/-- The body of `update_duplicates`'s outer loop for one IOC entry
(store.js 629-644): push the IOC name for every key of its traditional
database, then for every key of its PVA database. -/
def dupes_step (dupes : List (String × List String)) (p : String × IocInfo) :
    List (String × List String) :=
  let d1 := p.2.ioc.shell_state.database.foldl (fun d e => push_owner e.1 p.1 d) dupes
  p.2.ioc.shell_state.pva_database.foldl (fun d e => push_owner e.1 p.1 d) d1

/-- The duplicate map computed by `update_duplicates` (store.js 628-649):
accumulate owners per name, then delete every name with at most one
owner occurrence. -/
def computeDupes (iocs : List (String × IocInfo)) : List (String × List String) :=
  (iocs.foldl dupes_step []).filter (fun p => decide (2 ≤ p.2.length))

/-- `update_duplicates` of `cached_local_store` (store.js 622-653):
early return when a duplicate map is already stored; otherwise
`Object.entries(cache.iocs)` throws a `TypeError` when the `iocs` key is
absent; on success commits the computed map and returns `undefined`. -/
def update_duplicates (fetch : Option Cache) (s : LocalState) :
    LocalState × Except JsError (Option (List (String × List String))) :=
  if s.duplicates.length > 0 then (s, .ok (some s.duplicates))
  else
    match load_cached_whatrecord_data fetch s with
    | (s1, c) =>
      match c.iocs with
      | none => (s1, .error .typeError)
      | some iocs =>
        ({ s1 with duplicates := computeDupes iocs }, .ok none)

/-- The raw match list collected by the pattern-search scan (store.js
710-725): every IOC's traditional record names then its PVA record names,
in snapshot order, one occurrence per owning namespace entry, filtered by
the matcher. -/
def collectMatches (iocs : List (String × IocInfo)) (matcher : String → Bool) :
    List String :=
  iocs.flatMap (fun p =>
    (p.2.ioc.shell_state.database.map Prod.fst).filter matcher ++
    (p.2.ioc.shell_state.pva_database.map Prod.fst).filter matcher)

/-- The cache-miss path of `find_record_matches` of `cached_local_store`
(store.js 687-739).  The match-all default `query_pattern` is computed
(store.js 687) but used only in the debug log: the matcher is compiled
from the raw `pattern` (store.js 699 and 707).  An invalid regex returns
before the try block, so no tracker mutation runs; a snapshot without an
`iocs` key makes the scan throw a `TypeError`, also before the try block.
On success the commit stores the deduplicated sorted list under the raw
pattern, the finally block runs `end_query` — with no matching
`start_query` anywhere in this action — and the raw `matches` list is
returned. -/
def find_record_matches_miss (fetch : Option Cache) (s : LocalState)
    (p : String) (regex : Bool) :
    LocalState × Except JsError (Option (List String)) :=
  match load_cached_whatrecord_data fetch s with
  | (s1, c) =>
    match (if regex then (parseRegex p).map jsRegexTest else some (wcTest p)) with
    | none => (s1, .ok none)
    | some matcher =>
      match c.iocs with
      | none => (s1, .error .typeError)
      | some iocs =>
        let ms := collectMatches iocs matcher
        let s2 :=
          if regex then
            { s1 with regex_to_pvs := setStr p (sortedDedup ms) s1.regex_to_pvs }
          else
            { s1 with glob_to_pvs := setStr p (sortedDedup ms) s1.glob_to_pvs }
        (s2.end_query, .ok (some ms))

/-- `find_record_matches` of `cached_local_store` (store.js 677-740): a
null/undefined pattern returns `undefined` immediately; a per-mode cache
hit returns the stored list; otherwise the miss path runs. -/
def find_record_matches (fetch : Option Cache) (s : LocalState)
    (pattern : Option String) (regex : Bool) :
    LocalState × Except JsError (Option (List String)) :=
  match pattern with
  | none => (s, .ok none)
  | some p =>
    if regex then
      match lookupStr p s.regex_to_pvs with
      | some v => (s, .ok (some v))
      | none => find_record_matches_miss fetch s p true
    else
      match lookupStr p s.glob_to_pvs with
      | some v => (s, .ok (some v))
      | none => find_record_matches_miss fetch s p false

/-! ## remote_store (store.js lines 6-323)

State fields of the live backend that its modelled actions touch. -/

structure RemoteState where
  glob_to_pvs : List (String × List String)
  queries_in_progress : Int
  query_in_progress : Bool
  record_info : List (String × RecordInfoResult)
  regex_to_pvs : List (String × List String)
  deriving DecidableEq, Repr

/-- The initial remote-store state (store.js lines 7-21). -/
def RemoteState.init : RemoteState :=
  { glob_to_pvs := [], queries_in_progress := 0, query_in_progress := false,
    record_info := [], regex_to_pvs := [] }

/-- The `start_query` mutation of `remote_store` (store.js 23-26). -/
def RemoteState.start_query (s : RemoteState) : RemoteState :=
  { s with queries_in_progress := s.queries_in_progress + 1,
           query_in_progress := true }

/-- The `end_query` mutation of `remote_store` (store.js 27-34). -/
def RemoteState.end_query (s : RemoteState) : RemoteState :=
  let n := if 0 < s.queries_in_progress then s.queries_in_progress - 1
           else s.queries_in_progress
  { s with queries_in_progress := n,
           query_in_progress := if n = 0 then false else s.query_in_progress }

/-- The request pattern of store.js line 297: `pattern || (regex ? ".*" :
"*")` — the raw pattern unless it is the empty string. -/
def remote_query_pattern (p : String) (regex : Bool) : String :=
  if p = "" then (if regex then ".*" else "*") else p

/-- The cache-miss path of `find_record_matches` of `remote_store`
(store.js 296-320): `start_query`, substitute the match-all default for an
empty pattern (store.js 297), issue one request to /api/pv/matches with
that `query_pattern`, on success commit the response's match list under
the raw pattern and return it, on failure log and return `undefined`, and
always `end_query`.  `net` is the network oracle and the middle component
of the result records the requests issued, as (pattern, regex) pairs. -/
def remote_find_record_matches_miss (net : String → Bool → Option (List String))
    (s : RemoteState) (p : String) (regex : Bool) :
    RemoteState × List (String × Bool) × Option (List String) :=
  let s1 := s.start_query
  let query_pattern := remote_query_pattern p regex
  match net query_pattern regex with
  | some ms =>
    let s2 :=
      if regex then { s1 with regex_to_pvs := setStr p ms s1.regex_to_pvs }
      else { s1 with glob_to_pvs := setStr p ms s1.glob_to_pvs }
    (s2.end_query, [(query_pattern, regex)], some ms)
  | none => (s1.end_query, [(query_pattern, regex)], none)

/-- `find_record_matches` of `remote_store` (store.js 287-321): a
null/undefined pattern returns `undefined` with no request; a per-mode
cache hit returns the stored list with no request; otherwise the miss
path runs. -/
def remote_find_record_matches (net : String → Bool → Option (List String))
    (s : RemoteState) (pattern : Option String) (regex : Bool) :
    RemoteState × List (String × Bool) × Option (List String) :=
  match pattern with
  | none => (s, [], none)
  | some p =>
    if regex then
      match lookupStr p s.regex_to_pvs with
      | some v => (s, [], some v)
      | none => remote_find_record_matches_miss net s p true
    else
      match lookupStr p s.glob_to_pvs with
      | some v => (s, [], some v)
      | none => remote_find_record_matches_miss net s p false

/-- `get_record_info` of `remote_store` (store.js 183-204).  The action
signature omits the `{ record_name }` destructuring, so its first
statement (`if (record_name in context.state.record_info)`, store.js 184)
reads the undeclared identifier `record_name` and every call throws a
`ReferenceError` before the try block is reached: no request is made, no
mutation (tracker included) runs, and the error propagates to the
dispatcher. -/
def remote_get_record_info (s : RemoteState) :
    RemoteState × Except JsError (Option RecordInfoResult) :=
  (s, .error .referenceError)

/-! ## Specification-side descriptions used to characterize the scans -/

/-- The owner occurrences of a PV name over a snapshot: one occurrence of
the IOC's name per entry of its traditional namespace keyed by the name,
then one per such entry of its PVA namespace, in snapshot order — the
multiset `update_duplicates` accumulates for the name. -/
def ownersOf (iocs : List (String × IocInfo)) (pv : String) : List String :=
  iocs.flatMap (fun q =>
    (q.2.ioc.shell_state.database.filterMap
      (fun e => if e.1 = pv then some q.1 else none)) ++
    (q.2.ioc.shell_state.pva_database.filterMap
      (fun e => if e.1 = pv then some q.1 else none)))

/-- Append owner occurrences to an optional existing owner list, creating
the entry when any occurrence arrives (the effect of repeated
`push_owner` on one key's binding). -/
def ownAppend (o : Option (List String)) (add : List String) : Option (List String) :=
  match o, add with
  | none, [] => none
  | o, add => some (o.getD [] ++ add)

/-- The whatrec entries one snapshot IOC entry contributes for a name:
its traditional hit, if any, then its PVA hit, if any. -/
def iocHits (record_name : String) (q : String × IocInfo) : List WhatRec :=
  (match lookupStr record_name q.2.ioc.shell_state.database with
   | some r => [v3_whatrec record_name q.2 r]
   | none => []) ++
  (match lookupStr record_name q.2.ioc.shell_state.pva_database with
   | some g => [v4_whatrec record_name q.2 g]
   | none => [])

/-- The sequence of whatrec entries `get_record_info` commits for a name,
in scan order: per IOC, the traditional hit then the PVA hit. -/
def recordHits (iocs : List (String × IocInfo)) (record_name : String) : List WhatRec :=
  iocs.flatMap (iocHits record_name)

/-- The single-entry result object committed for one hit (store.js lines
547 and 570). -/
def mkRecordInfo (record_name : String) (w : WhatRec) : RecordInfoResult :=
  { pv_name := record_name, present := true, info := [w] }

/-! ## Concrete example data for counterexamples and witnesses -/

/-- An example traditional record of record type "ai". -/
def exRec : RecordInstance := ⟨"ai"⟩

/-- An example PVA group record. -/
def exGrp : GroupRecord := ⟨"grp"⟩

/-- IOC "A" exposing the PV "p" in both its traditional and its PVA
namespace. -/
def exIocP : IocInfo := ⟨⟨"A"⟩, ⟨⟨[("p", exRec)], [("p", exGrp)], none⟩⟩⟩

/-- A snapshot holding only `exIocP`. -/
def exSnapP : Cache := ⟨some [("A", exIocP)], none⟩

/-- A store state with `exSnapP` already loaded. -/
def exStateP : LocalState := { LocalState.init with cache := some exSnapP }

/-- IOC "A" exposing only the traditional PV "x". -/
def exIocX : IocInfo := ⟨⟨"A"⟩, ⟨⟨[("x", exRec)], [], none⟩⟩⟩

/-- A snapshot holding only `exIocX`. -/
def exSnapX : Cache := ⟨some [("A", exIocX)], none⟩

/-- A store state with `exSnapX` already loaded. -/
def exStateX : LocalState := { LocalState.init with cache := some exSnapX }

/-- IOC "B" exposing the PV "pv1" in both namespaces. -/
def exIocB : IocInfo := ⟨⟨"B"⟩, ⟨⟨[("pv1", exRec)], [("pv1", exGrp)], none⟩⟩⟩

/-- A snapshot holding only `exIocB`. -/
def exSnapB : Cache := ⟨some [("B", exIocB)], none⟩

/-- A store state with `exSnapB` already loaded. -/
def exStateB : LocalState := { LocalState.init with cache := some exSnapB }

/-- IOC "A" of the duplicate-detection example: traditional PVs pv1, pv2. -/
def exIocA2 : IocInfo := ⟨⟨"A"⟩, ⟨⟨[("pv1", exRec), ("pv2", exRec)], [], none⟩⟩⟩

/-- IOC "B" of the duplicate-detection example: traditional PVs pv2, pv3. -/
def exIocB2 : IocInfo := ⟨⟨"B"⟩, ⟨⟨[("pv2", exRec), ("pv3", exRec)], [], none⟩⟩⟩

/-- The duplicate-detection example snapshot {A: [pv1, pv2], B: [pv2, pv3]}. -/
def exSnapAB : Cache := ⟨some [("A", exIocA2), ("B", exIocB2)], none⟩

/-- A store state with `exSnapAB` already loaded. -/
def exStateAB : LocalState := { LocalState.init with cache := some exSnapAB }

/-- A database-definition table registering record type "ai". -/
def exDbd : DatabaseDefinition := ⟨[("ai", ⟨"aidef"⟩)]⟩

/-- IOC "C": traditional PV "pv", with a database-definition table. -/
def exIocC : IocInfo := ⟨⟨"C"⟩, ⟨⟨[("pv", exRec)], [], some exDbd⟩⟩⟩

/-- IOC "D": PV "pv" in both namespaces, no database definition. -/
def exIocD : IocInfo := ⟨⟨"D"⟩, ⟨⟨[("pv", exRec)], [("pv", exGrp)], none⟩⟩⟩

/-- The snapshot iocs mapping holding IOC "C" then IOC "D". -/
def exIocsCD : List (String × IocInfo) := [("C", exIocC), ("D", exIocD)]

/-- A snapshot holding only `exIocC`. -/
def exSnapC : Cache := ⟨some [("C", exIocC)], none⟩

/-- A store state with `exSnapC` already loaded. -/
def exStateC : LocalState := { LocalState.init with cache := some exSnapC }

/-- A snapshot holding `exIocsCD`. -/
def exSnapCD : Cache := ⟨some exIocsCD, none⟩

/-- A store state with `exSnapCD` already loaded. -/
def exStateCD : LocalState := { LocalState.init with cache := some exSnapCD }

/-- A store state with `exSnapP` loaded while one other query is still in
flight (in-flight counter 1, busy flag set). -/
def exStateBusy : LocalState :=
  { exStateP with queries_in_progress := 1, query_in_progress := true }


/-! ## General lemmas about the helpers -/

theorem lookupStr_setStr_self {α : Type} (k : String) (v : α) (l : List (String × α)) :
    lookupStr k (setStr k v l) = some v := by
  induction l with
  | nil => simp [setStr, lookupStr]
  | cons h t ih =>
    by_cases hk : h.1 = k <;> simp [setStr, lookupStr, hk, ih]

theorem mem_dedupFirstAux (a : String) (l : List String) :
    ∀ seen, (a ∈ dedupFirstAux seen l ↔ a ∈ l ∧ a ∉ seen) := by
  induction l with
  | nil => intro seen; simp [dedupFirstAux]
  | cons x xs ih =>
    intro seen
    simp only [dedupFirstAux]
    by_cases hx : x ∈ seen
    · rw [if_pos hx, ih seen]
      constructor
      · rintro ⟨h1, h2⟩; exact ⟨List.mem_cons_of_mem _ h1, h2⟩
      · rintro ⟨h1, h2⟩
        rcases List.mem_cons.mp h1 with h | h
        · exact absurd (h ▸ hx) h2
        · exact ⟨h, h2⟩
    · rw [if_neg hx]
      by_cases hax : a = x
      · subst hax
        simp [hx]
      · rw [List.mem_cons, List.mem_cons, ih (x :: seen)]
        constructor
        · rintro (h | ⟨h1, h2⟩)
          · exact absurd h hax
          · exact ⟨Or.inr h1, fun hs => h2 (List.mem_cons_of_mem _ hs)⟩
        · rintro ⟨h1, h2⟩
          rcases h1 with h | h
          · exact absurd h hax
          · refine Or.inr ⟨h, ?_⟩
            intro hs
            rcases List.mem_cons.mp hs with h' | h'
            · exact hax h'
            · exact h2 h'

theorem mem_dedupFirst (a : String) (l : List String) : a ∈ dedupFirst l ↔ a ∈ l := by
  simpa [dedupFirst] using mem_dedupFirstAux a l []

theorem nodup_dedupFirstAux (l : List String) : ∀ seen, (dedupFirstAux seen l).Nodup := by
  induction l with
  | nil => intro seen; simp [dedupFirstAux]
  | cons x xs ih =>
    intro seen
    simp only [dedupFirstAux]
    by_cases hx : x ∈ seen
    · rw [if_pos hx]; exact ih seen
    · rw [if_neg hx]
      refine List.nodup_cons.mpr ⟨?_, ih (x :: seen)⟩
      intro hmem
      exact ((mem_dedupFirstAux x xs (x :: seen)).mp hmem).2 (List.mem_cons_self x seen)

theorem nodup_dedupFirst (l : List String) : (dedupFirst l).Nodup :=
  nodup_dedupFirstAux l []

theorem charsLe_total : ∀ (a b : List Char), charsLe a b = true ∨ charsLe b a = true
  | [], _ => Or.inl rfl
  | _ :: _, [] => Or.inr rfl
  | a :: as, b :: bs => by
    simp only [charsLe, Bool.or_eq_true, Bool.and_eq_true, decide_eq_true_eq]
    rcases Nat.lt_trichotomy a.toNat b.toNat with h | h | h
    · exact Or.inl (Or.inl h)
    · rcases charsLe_total as bs with hr | hr
      · exact Or.inl (Or.inr ⟨h, hr⟩)
      · exact Or.inr (Or.inr ⟨h.symm, hr⟩)
    · exact Or.inr (Or.inl h)

theorem charsLe_trans :
    ∀ (a b c : List Char), charsLe a b = true → charsLe b c = true → charsLe a c = true
  | [], _, _ => fun _ _ => rfl
  | _ :: _, [], _ => by intro h _; simp [charsLe] at h
  | _ :: _, _ :: _, [] => by intro _ h; simp [charsLe] at h
  | a :: as, b :: bs, c :: cs => by
    intro h1 h2
    simp only [charsLe, Bool.or_eq_true, Bool.and_eq_true, decide_eq_true_eq] at h1 h2 ⊢
    rcases h1 with h1 | ⟨h1e, h1r⟩ <;> rcases h2 with h2 | ⟨h2e, h2r⟩
    · exact Or.inl (by omega)
    · exact Or.inl (by omega)
    · exact Or.inl (by omega)
    · exact Or.inr ⟨by omega, charsLe_trans as bs cs h1r h2r⟩

instance : IsTotal String strLe :=
  ⟨fun a b => charsLe_total a.data b.data⟩

instance : IsTrans String strLe :=
  ⟨fun a b c => charsLe_trans a.data b.data c.data⟩

theorem mem_sortedDedup {a : String} {l : List String} : a ∈ sortedDedup l ↔ a ∈ l := by
  unfold sortedDedup sortStrings
  rw [(List.perm_insertionSort _ _).mem_iff]
  exact mem_dedupFirst a l

theorem nodup_sortedDedup (l : List String) : (sortedDedup l).Nodup := by
  unfold sortedDedup sortStrings
  rw [(List.perm_insertionSort _ _).nodup_iff]
  exact nodup_dedupFirst l

theorem sorted_sortedDedup (l : List String) :
    List.Sorted strLe (sortedDedup l) :=
  List.sorted_insertionSort _ _

/-- A name is in the raw scan list exactly when it matches and some
snapshot IOC exposes it in one of its namespaces. -/
theorem mem_collectMatches {n : String} {iocs : List (String × IocInfo)}
    {m : String → Bool} :
    n ∈ collectMatches iocs m ↔
      (m n = true ∧ ∃ q ∈ iocs,
        n ∈ q.2.ioc.shell_state.database.map Prod.fst ∨
        n ∈ q.2.ioc.shell_state.pva_database.map Prod.fst) := by
  unfold collectMatches
  rw [List.mem_flatMap]
  constructor
  · rintro ⟨q, hq, hmem⟩
    rcases List.mem_append.mp hmem with h | h <;> rw [List.mem_filter] at h
    · exact ⟨h.2, q, hq, Or.inl h.1⟩
    · exact ⟨h.2, q, hq, Or.inr h.1⟩
  · rintro ⟨hm, q, hq, h | h⟩
    · exact ⟨q, hq, List.mem_append.mpr (Or.inl (List.mem_filter.mpr ⟨h, hm⟩))⟩
    · exact ⟨q, hq, List.mem_append.mpr (Or.inr (List.mem_filter.mpr ⟨h, hm⟩))⟩

/-- Evaluation of the snapshot backend's pattern search on a cache miss
over an already-loaded snapshot with an iocs key, when the matcher
compiles: the deduplicated sorted list is committed under the raw
pattern, end_query runs, and the raw scan list is returned. -/
theorem find_record_matches_eval (fetch : Option Cache) (s : LocalState) (p : String)
    (regex : Bool) (snap : Cache) (iocs : List (String × IocInfo)) (m : String → Bool)
    (hc : s.cache = some snap) (hi : snap.iocs = some iocs)
    (hmiss : (if regex then lookupStr p s.regex_to_pvs else lookupStr p s.glob_to_pvs) = none)
    (hm : (if regex then (parseRegex p).map jsRegexTest else some (wcTest p)) = some m) :
    find_record_matches fetch s (some p) regex =
      ((if regex then
          { s with regex_to_pvs := setStr p (sortedDedup (collectMatches iocs m)) s.regex_to_pvs }
        else
          { s with glob_to_pvs := setStr p (sortedDedup (collectMatches iocs m)) s.glob_to_pvs }).end_query,
       .ok (some (collectMatches iocs m))) := by
  cases regex with
  | false =>
    simp only [if_neg Bool.false_ne_true] at hmiss hm ⊢
    obtain rfl : wcTest p = m := by simpa using hm
    simp only [find_record_matches, hmiss, find_record_matches_miss,
      load_cached_whatrecord_data, hc, hi]
    simp
  | true =>
    simp only [if_pos rfl, if_true] at hmiss hm ⊢
    simp only [find_record_matches, find_record_matches_miss,
      load_cached_whatrecord_data, hc, hi, hm]
    simp [hmiss]

/-- Evaluation of the live backend's pattern search on a per-mode cache
hit: the stored list is returned, no request is made, nothing changes. -/
theorem remote_fm_hit (net : String → Bool → Option (List String)) (s : RemoteState)
    (p : String) (regex : Bool) (v : List String)
    (hhit : (if regex then lookupStr p s.regex_to_pvs else lookupStr p s.glob_to_pvs) = some v) :
    remote_find_record_matches net s (some p) regex = (s, [], some v) := by
  cases regex with
  | false =>
    simp only [if_neg Bool.false_ne_true] at hhit
    simp [remote_find_record_matches, hhit]
  | true =>
    simp only [if_pos rfl, if_true] at hhit
    simp [remote_find_record_matches, hhit]

/-- Evaluation of the live backend's pattern search on a cache miss with
a failed request: tracker start and end, one request, no commit,
undefined result. -/
theorem remote_fm_miss_none (net : String → Bool → Option (List String)) (s : RemoteState)
    (p : String) (regex : Bool)
    (hmiss : (if regex then lookupStr p s.regex_to_pvs else lookupStr p s.glob_to_pvs) = none)
    (hnet : net (remote_query_pattern p regex) regex = none) :
    remote_find_record_matches net s (some p) regex =
      (s.start_query.end_query, [(remote_query_pattern p regex, regex)], none) := by
  cases regex with
  | false =>
    simp only [if_neg Bool.false_ne_true] at hmiss
    simp [remote_find_record_matches, hmiss, remote_find_record_matches_miss, hnet]
  | true =>
    simp only [if_pos rfl, if_true] at hmiss
    simp [remote_find_record_matches, hmiss, remote_find_record_matches_miss, hnet]

/-- Evaluation of the live backend's pattern search on a cache miss with
a successful request: tracker start and end, one request with the
substituted query pattern, the response list committed under the raw
pattern and returned. -/
theorem remote_fm_miss_some (net : String → Bool → Option (List String)) (s : RemoteState)
    (p : String) (regex : Bool) (resp : List String)
    (hmiss : (if regex then lookupStr p s.regex_to_pvs else lookupStr p s.glob_to_pvs) = none)
    (hnet : net (remote_query_pattern p regex) regex = some resp) :
    remote_find_record_matches net s (some p) regex =
      ((if regex then
          { s.start_query with regex_to_pvs := setStr p resp s.start_query.regex_to_pvs }
        else
          { s.start_query with glob_to_pvs := setStr p resp s.start_query.glob_to_pvs }).end_query,
       [(remote_query_pattern p regex, regex)], some resp) := by
  cases regex with
  | false =>
    simp only [if_neg Bool.false_ne_true] at hmiss ⊢
    simp [remote_find_record_matches, hmiss, remote_find_record_matches_miss, hnet]
  | true =>
    simp only [if_pos rfl, if_true] at hmiss ⊢
    simp [remote_find_record_matches, hmiss, remote_find_record_matches_miss, hnet]

/-! ## Lemmas about the duplicate scan -/

theorem lookupStr_eq_none_iff {α : Type} (k : String) (l : List (String × α)) :
    lookupStr k l = none ↔ k ∉ l.map Prod.fst := by
  induction l with
  | nil => simp [lookupStr]
  | cons h t ih =>
    obtain ⟨k', v⟩ := h
    by_cases hk : k' = k
    · subst hk; simp [lookupStr]
    · simp only [lookupStr, if_neg hk, List.map_cons, List.mem_cons, not_or, ih]
      have hne : ¬k = k' := fun hh => hk hh.symm
      tauto

theorem ownAppend_nil (o : Option (List String)) : ownAppend o [] = o := by
  cases o <;> simp [ownAppend]

theorem ownAppend_assoc (o : Option (List String)) (x y : List String) :
    ownAppend (ownAppend o x) y = ownAppend o (x ++ y) := by
  cases o <;> cases x <;> cases y <;> simp [ownAppend]

theorem lookupStr_push_owner (pv iocname k : String) (d : List (String × List String)) :
    lookupStr k (push_owner pv iocname d) =
      if pv = k then ownAppend (lookupStr k d) [iocname] else lookupStr k d := by
  induction d with
  | nil =>
    by_cases hp : pv = k
    · subst hp; simp [push_owner, lookupStr, ownAppend]
    · simp [push_owner, lookupStr, hp, Ne.symm hp]
  | cons h t ih =>
    obtain ⟨k', v⟩ := h
    by_cases hk' : k' = pv
    · subst hk'
      by_cases hp : k' = k
      · subst hp; simp [push_owner, lookupStr, ownAppend]
      · simp [push_owner, lookupStr, hp, Ne.symm hp]
    · by_cases hp : k' = k
      · subst hp
        have hpk : ¬pv = k' := fun hh => hk' hh.symm
        simp [push_owner, lookupStr, hk', hpk]
      · simp [push_owner, lookupStr, hk', hp, ih]

theorem lookupStr_fold_push {α : Type} (iocname k : String) (entries : List (String × α)) :
    ∀ d, lookupStr k (entries.foldl (fun acc e => push_owner e.1 iocname acc) d) =
      ownAppend (lookupStr k d)
        (entries.filterMap (fun e => if e.1 = k then some iocname else none)) := by
  induction entries with
  | nil => intro d; simp [ownAppend_nil]
  | cons e es ih =>
    intro d
    rw [List.foldl_cons, ih, lookupStr_push_owner, List.filterMap_cons]
    by_cases he : e.1 = k
    · rw [if_pos he, if_pos he, ownAppend_assoc]
      rfl
    · rw [if_neg he, if_neg he]

theorem lookupStr_dupes_step (k : String) (q : String × IocInfo)
    (d : List (String × List String)) :
    lookupStr k (dupes_step d q) =
      ownAppend (lookupStr k d)
        ((q.2.ioc.shell_state.database.filterMap
            (fun e => if e.1 = k then some q.1 else none)) ++
         (q.2.ioc.shell_state.pva_database.filterMap
            (fun e => if e.1 = k then some q.1 else none))) := by
  unfold dupes_step
  rw [lookupStr_fold_push, lookupStr_fold_push, ownAppend_assoc]

theorem lookupStr_fold_dupes (k : String) (iocs : List (String × IocInfo)) :
    ∀ d, lookupStr k (iocs.foldl dupes_step d) =
      ownAppend (lookupStr k d) (ownersOf iocs k) := by
  induction iocs with
  | nil => intro d; simp [ownersOf, ownAppend_nil]
  | cons q qs ih =>
    intro d
    rw [List.foldl_cons, ih, lookupStr_dupes_step, ownAppend_assoc]
    simp [ownersOf, List.flatMap_cons, List.append_assoc]

theorem keys_push_owner (pv iocname : String) (d : List (String × List String)) :
    (push_owner pv iocname d).map Prod.fst =
      if lookupStr pv d = none then d.map Prod.fst ++ [pv] else d.map Prod.fst := by
  induction d with
  | nil => simp [push_owner, lookupStr]
  | cons h t ih =>
    obtain ⟨k', v⟩ := h
    by_cases hk : k' = pv
    · subst hk; simp [push_owner, lookupStr]
    · simp only [push_owner, if_neg hk, List.map_cons, lookupStr, ih]
      split_ifs <;> simp

theorem nodup_keys_push_owner (pv iocname : String) (d : List (String × List String))
    (h : (d.map Prod.fst).Nodup) : ((push_owner pv iocname d).map Prod.fst).Nodup := by
  rw [keys_push_owner]
  split_ifs with hl
  · have hpv : pv ∉ d.map Prod.fst := (lookupStr_eq_none_iff pv d).mp hl
    rw [List.nodup_append]
    refine ⟨h, List.nodup_singleton pv, ?_⟩
    intro a ha hmem
    rw [List.mem_singleton] at hmem
    exact hpv (hmem ▸ ha)
  · exact h

theorem nodup_keys_fold_push {α : Type} (iocname : String) (entries : List (String × α)) :
    ∀ d, (d.map Prod.fst).Nodup →
      ((entries.foldl (fun acc e => push_owner e.1 iocname acc) d).map Prod.fst).Nodup := by
  induction entries with
  | nil => intro d h; exact h
  | cons e es ih =>
    intro d h
    rw [List.foldl_cons]
    exact ih _ (nodup_keys_push_owner _ _ _ h)

theorem nodup_keys_fold_dupes (iocs : List (String × IocInfo)) :
    ∀ d, (d.map Prod.fst).Nodup →
      ((iocs.foldl dupes_step d).map Prod.fst).Nodup := by
  induction iocs with
  | nil => intro d h; exact h
  | cons q qs ih =>
    intro d h
    rw [List.foldl_cons]
    exact ih _ (nodup_keys_fold_push _ _ _ (nodup_keys_fold_push _ _ _ h))

theorem lookupStr_filter {α : Type} (pred : String × α → Bool) (k : String) :
    ∀ (l : List (String × α)), (l.map Prod.fst).Nodup →
      lookupStr k (l.filter pred) =
        (match lookupStr k l with
         | some v => if pred (k, v) then some v else none
         | none => none) := by
  intro l
  induction l with
  | nil => intro _; simp [lookupStr]
  | cons h t ih =>
    intro hnd
    obtain ⟨k', v'⟩ := h
    rw [List.map_cons] at hnd
    have hnd' := List.nodup_cons.mp hnd
    by_cases hk : k' = k
    · subst hk
      by_cases hp : pred (k', v') = true
      · simp [List.filter_cons, hp, lookupStr]
      · have hkt : lookupStr k' t = none := (lookupStr_eq_none_iff _ _).mpr hnd'.1
        have hkf : lookupStr k' (t.filter pred) = none := by
          rw [lookupStr_eq_none_iff]
          intro hmem
          rw [lookupStr_eq_none_iff] at hkt
          apply hkt
          rcases List.mem_map.mp hmem with ⟨e, he, hke⟩
          exact List.mem_map.mpr ⟨e, (List.mem_filter.mp he).1, hke⟩
        simp [List.filter_cons, hp, lookupStr, hkf]
    · by_cases hp : pred (k', v') = true
      · simp [List.filter_cons, hp, lookupStr, hk, ih hnd'.2]
      · simp [List.filter_cons, hp, lookupStr, hk, ih hnd'.2]

/-- The per-name characterization of the committed duplicate map: a name
is bound exactly when it has at least two owner occurrences, to its full
occurrence list. -/
theorem lookupStr_computeDupes (iocs : List (String × IocInfo)) (k : String) :
    lookupStr k (computeDupes iocs) =
      if 2 ≤ (ownersOf iocs k).length then some (ownersOf iocs k) else none := by
  unfold computeDupes
  have hnd : (((iocs.foldl dupes_step []).map Prod.fst)).Nodup :=
    nodup_keys_fold_dupes iocs [] (by simp)
  rw [lookupStr_filter _ _ _ hnd, lookupStr_fold_dupes]
  cases howners : ownersOf iocs k with
  | nil => simp [ownAppend, lookupStr]
  | cons a rest =>
    by_cases h2 : 2 ≤ (a :: rest).length
    · simp [ownAppend, lookupStr, h2]
    · simp [ownAppend, lookupStr, h2]

/-! ## Lemmas about the per-PV info scan -/

theorem recordHits_append (record_name : String) (l1 l2 : List (String × IocInfo)) :
    recordHits (l1 ++ l2) record_name =
      recordHits l1 record_name ++ recordHits l2 record_name := by
  simp [recordHits, List.flatMap_append]

theorem recordHits_cons (record_name : String) (q : String × IocInfo)
    (qs : List (String × IocInfo)) :
    recordHits (q :: qs) record_name =
      iocHits record_name q ++ recordHits qs record_name := by
  simp [recordHits, List.flatMap_cons]

theorem recordHits_eq_nil (record_name : String) :
    ∀ (l : List (String × IocInfo)),
      (∀ q ∈ l, lookupStr record_name q.2.ioc.shell_state.database = none) →
      (∀ q ∈ l, lookupStr record_name q.2.ioc.shell_state.pva_database = none) →
      recordHits l record_name = [] := by
  intro l
  induction l with
  | nil => intro _ _; rfl
  | cons q qs ih =>
    intro h3 h4
    rw [recordHits_cons]
    have hq : iocHits record_name q = [] := by
      unfold iocHits
      rw [h3 q (List.mem_cons_self q qs), h4 q (List.mem_cons_self q qs)]
      rfl
    rw [hq,
      ih (fun x hx => h3 x (List.mem_cons_of_mem _ hx))
         (fun x hx => h4 x (List.mem_cons_of_mem _ hx))]
    rfl

/-- One scan step commits, for the scanned name, the last of this IOC's
hits on top of whatever was there. -/
theorem record_info_step_lookup (record_name : String) (st : LocalState)
    (q : String × IocInfo) :
    lookupStr record_name (record_info_step record_name st q.2).record_info =
      ((iocHits record_name q).getLast?.map (mkRecordInfo record_name)).or
        (lookupStr record_name st.record_info) := by
  unfold record_info_step iocHits mkRecordInfo
  cases h3 : lookupStr record_name q.2.ioc.shell_state.database <;>
  cases h4 : lookupStr record_name q.2.ioc.shell_state.pva_database <;>
    simp [h3, h4, lookupStr_setStr_self, Option.or]

/-- The whole scan commits, for the scanned name, exactly the last hit in
scan order (or leaves the state alone when there is none). -/
theorem scan_record_info_lookup (record_name : String) (iocs : List (String × IocInfo)) :
    ∀ st : LocalState,
      lookupStr record_name
        ((iocs.foldl (fun st p => record_info_step record_name st p.2) st).record_info) =
      ((recordHits iocs record_name).getLast?.map (mkRecordInfo record_name)).or
        (lookupStr record_name st.record_info) := by
  induction iocs with
  | nil => intro st; simp [recordHits]
  | cons q qs ih =>
    intro st
    rw [List.foldl_cons, ih, recordHits_cons, List.getLast?_append]
    cases hqs : (recordHits qs record_name).getLast? with
    | some w => simp [Option.or]
    | none =>
      rw [record_info_step_lookup]
      simp [Option.none_or]

/-! ## Theorems -/

/-- Claim C1: starting from the initial store state, for every reachable
tracker state and every finite sequence of start_query and end_query
mutations applied to it, the in-flight counter never becomes negative,
and after every mutation the busy flag is set if and only if the counter
is positive. -/
theorem claim_C1_tracker_invariant (ops0 ops : List QOp) :
    QInv ((QueryState.init.applyOps ops0).applyOps ops) := by
  have hstep : ∀ (s : QueryState), QInv s → ∀ op, QInv (s.applyOp op) := by
    rintro ⟨n, b⟩ ⟨h1, h2⟩ op
    simp only at h1 h2
    cases op with
    | start_op =>
      simp only [QInv, QueryState.applyOp, QueryState.start_query]
      exact ⟨by omega, by simp; omega⟩
    | end_op =>
      simp only [QInv, QueryState.applyOp, QueryState.end_query]
      by_cases hn : 0 < n
      · rw [if_pos hn]
        by_cases hz : (n - 1 : Int) = 0
        · rw [if_pos hz]
          exact ⟨by omega, by simp; omega⟩
        · rw [if_neg hz]
          refine ⟨by omega, ?_⟩
          rw [h2]
          omega
      · rw [if_neg hn]
        have hz : n = 0 := by omega
        rw [if_pos hz]
        exact ⟨by omega, by simp; omega⟩
  have hall : ∀ (s : QueryState), QInv s → ∀ l, QInv (s.applyOps l) := by
    intro s hs l
    induction l generalizing s with
    | nil => exact hs
    | cons op t ih =>
      have : QueryState.applyOps s (op :: t) = QueryState.applyOps (s.applyOp op) t := by
        simp [QueryState.applyOps, List.foldl]
      rw [this]
      exact ih _ (hstep s hs op)
  have hinit : QInv QueryState.init := by
    constructor
    · simp [QueryState.init]
    · simp [QueryState.init]
  exact hall _ (hall _ hinit ops0) ops

/-- Claim C2 (refuted; the code contradicts the spec's begin/end
contract): the snapshot backend's find_record_matches never commits
start_query, yet its finally block commits end_query once on every path
that reaches the try block.  Dispatching it with an uncached pattern
while one other query is in flight therefore completes with the in-flight
counter driven from 1 to 0 — a net change of -1 instead of 0 — and the
busy flag cleared although the other query has not ended. -/
theorem claim_C2_end_without_begin :
    exStateBusy.queries_in_progress = 1 ∧
    exStateBusy.query_in_progress = true ∧
    (find_record_matches none exStateBusy (some "x") false).2 = .ok (some []) ∧
    (find_record_matches none exStateBusy (some "x") false).1.queries_in_progress = 0 ∧
    (find_record_matches none exStateBusy (some "x") false).1.query_in_progress = false :=
  ⟨rfl, rfl, rfl, rfl, rfl⟩

/-- Claim C3 (refuted): query entry points do raise.  The remote
backend's get_record_info throws a ReferenceError on every call (its
signature omits the { record_name } destructuring); the snapshot
backend's get_ioc_records throws a TypeError when the requested IOC name
is absent from the snapshot, and also when the snapshot load failed and
left the fallback {} document. -/
theorem claim_C3_actions_raise :
    (remote_get_record_info RemoteState.init).2 = .error .referenceError ∧
    (get_ioc_records none exStateP "nope").2 = .error .typeError ∧
    (get_ioc_records none LocalState.init "A").2 = .error .typeError :=
  ⟨rfl, rfl, rfl⟩

/-- Claim C8 (refuted): with the fallback snapshot {} left by a failed
fetch — a document lacking both the iocs and the files key — every one of
the five named snapshot-backend queries throws a TypeError (reading a
property of undefined) instead of treating the missing key as an empty
mapping. -/
theorem claim_C8_missing_keys_raise :
    (update_ioc_info none LocalState.init).2 = .error .typeError ∧
    (get_record_info none LocalState.init "x").2 = .error .typeError ∧
    (update_duplicates none LocalState.init).2 = .error .typeError ∧
    (find_record_matches none LocalState.init (some "x") false).2 = .error .typeError ∧
    (get_file_info none LocalState.init "f").2 = .error .typeError :=
  ⟨rfl, rfl, rfl, rfl, rfl⟩

/-- Claim C4 counterexample: on the snapshot backend, searching twice for
the glob pattern "*" over a snapshot whose IOC "A" exposes the PV "p" in
both namespaces returns ["p", "p"] the first time (the raw scan list) but
["p"] the second time (the committed deduplicated sorted cache entry), so
the second result is not identical to the first. -/
theorem claim_C4_counterexample :
    (find_record_matches none exStateP (some "*") false).2 = .ok (some ["p", "p"]) ∧
    (find_record_matches none
        (find_record_matches none exStateP (some "*") false).1
        (some "*") false).2 = .ok (some ["p"]) ∧
    (["p", "p"] : List String) ≠ ["p"] :=
  ⟨rfl, rfl, by decide⟩

/-- Claim C5 counterexample: the value returned by the snapshot backend's
pattern search is the raw scan list, not the deduplicated sorted
sequence: for the glob pattern "*" over `exSnapP` it returns ["p", "p"],
while the deduplicated sorted sequence of matching names is ["p"]. -/
theorem claim_C5_counterexample :
    (find_record_matches none exStateP (some "*") false).2 = .ok (some ["p", "p"]) ∧
    sortedDedup ["p", "p"] = ["p"] ∧
    (["p", "p"] : List String) ≠ ["p"] :=
  ⟨rfl, by decide, by decide⟩

/-- Claim C6 counterexample: for a snapshot with the single IOC "B"
exposing "pv1" in both its traditional and its PVA namespace,
update_duplicates commits {pv1: [B, B]} — "pv1" is owned by fewer than
two distinct IOCs yet is present, listed with its one owner twice. -/
theorem claim_C6_counterexample :
    (update_duplicates none exStateB).1.duplicates = [("pv1", ["B", "B"])] ∧
    lookupStr "pv1" (update_duplicates none exStateB).1.duplicates = some ["B", "B"] :=
  ⟨rfl, rfl⟩

/-- Claim C7 counterexample: on the snapshot backend an empty glob
pattern is not treated as match-all: over `exSnapX`, whose only PV name
is "x", the search for the empty pattern returns the empty list rather
than every PV name. -/
theorem claim_C7_counterexample :
    (find_record_matches none exStateX (some "") false).2 = .ok (some []) ∧
    exIocX.ioc.shell_state.database.map Prod.fst = ["x"] ∧
    (([] : List String) ≠ ["x"]) :=
  ⟨rfl, rfl, by decide⟩

/-- Claim C5 (amended): on a cache miss over a loaded snapshot with an
iocs key, when the matcher compiles, the snapshot backend's pattern
search commits to the per-(pattern, mode) cache the deduplicated,
lexicographically sorted sequence of exactly the PV names that match the
pattern and occur in some IOC's traditional or group namespace — but the
value it returns to the caller is the raw scan-order list, with one
occurrence per owning namespace entry, unsorted. -/
theorem claim_C5_amended (fetch : Option Cache) (s : LocalState) (p : String)
    (regex : Bool) (snap : Cache) (iocs : List (String × IocInfo)) (m : String → Bool)
    (hc : s.cache = some snap) (hi : snap.iocs = some iocs)
    (hmiss : (if regex then lookupStr p s.regex_to_pvs else lookupStr p s.glob_to_pvs) = none)
    (hm : (if regex then (parseRegex p).map jsRegexTest else some (wcTest p)) = some m) :
    (find_record_matches fetch s (some p) regex).2 = .ok (some (collectMatches iocs m)) ∧
    lookupStr p (if regex then (find_record_matches fetch s (some p) regex).1.regex_to_pvs
                 else (find_record_matches fetch s (some p) regex).1.glob_to_pvs) =
      some (sortedDedup (collectMatches iocs m)) ∧
    List.Sorted strLe (sortedDedup (collectMatches iocs m)) ∧
    (sortedDedup (collectMatches iocs m)).Nodup ∧
    (∀ n, n ∈ sortedDedup (collectMatches iocs m) ↔
      (m n = true ∧ ∃ q ∈ iocs,
        n ∈ q.2.ioc.shell_state.database.map Prod.fst ∨
        n ∈ q.2.ioc.shell_state.pva_database.map Prod.fst)) := by
  have heval := find_record_matches_eval fetch s p regex snap iocs m hc hi hmiss hm
  refine ⟨by rw [heval], ?_, sorted_sortedDedup _, nodup_sortedDedup _, ?_⟩
  · rw [heval]
    cases regex <;> simp [LocalState.end_query, lookupStr_setStr_self]
  · intro n
    rw [mem_sortedDedup]
    exact mem_collectMatches

/-- Claim C5 witness: the amended statement evaluated on `exSnapX` with
the glob pattern "*". -/
theorem claim_C5_witness :
    (find_record_matches none exStateX (some "*") false).2 = .ok (some ["x"]) ∧
    lookupStr "*" (find_record_matches none exStateX (some "*") false).1.glob_to_pvs =
      some ["x"] := by
  have h := claim_C5_amended none exStateX "*" false exSnapX [("A", exIocX)]
    (wcTest "*") rfl rfl rfl rfl
  exact ⟨h.1, h.2.1⟩

/-- Claim C4 (amended): a pattern search repeated on either backend is
answered from the per-(pattern, is_regex) cache: it issues no network
request and performs no snapshot rescan, leaves the state unchanged, and
returns the cached list.  On the live backend this is the identical list
the first call returned; on the snapshot backend it is the deduplicated
lexicographically sorted version of the first call's raw result, which
the counterexample shows can differ from it. -/
theorem claim_C4_amended :
    (∀ (net net2 : String → Bool → Option (List String)) (s : RemoteState) (p : String)
       (regex : Bool) (ms : List String),
       (remote_find_record_matches net s (some p) regex).2.2 = some ms →
       remote_find_record_matches net2 (remote_find_record_matches net s (some p) regex).1
           (some p) regex =
         ((remote_find_record_matches net s (some p) regex).1, [], some ms)) ∧
    (∀ (fetch fetch2 : Option Cache) (s : LocalState) (p : String) (regex : Bool)
       (snap : Cache) (iocs : List (String × IocInfo)) (m : String → Bool),
       s.cache = some snap → snap.iocs = some iocs →
       (if regex then lookupStr p s.regex_to_pvs else lookupStr p s.glob_to_pvs) = none →
       (if regex then (parseRegex p).map jsRegexTest else some (wcTest p)) = some m →
       find_record_matches fetch2 (find_record_matches fetch s (some p) regex).1
           (some p) regex =
         ((find_record_matches fetch s (some p) regex).1,
          .ok (some (sortedDedup (collectMatches iocs m))))) := by
  constructor
  · intro net net2 s p regex ms hfirst
    rcases hhit : (if regex then lookupStr p s.regex_to_pvs else lookupStr p s.glob_to_pvs)
      with _ | v
    · rcases hnet : net (remote_query_pattern p regex) regex with _ | resp
      · rw [remote_fm_miss_none net s p regex hhit hnet] at hfirst
        exact absurd hfirst (by simp)
      · rw [remote_fm_miss_some net s p regex resp hhit hnet] at hfirst ⊢
        obtain rfl : resp = ms := by simpa using hfirst
        apply remote_fm_hit
        cases regex with
        | false =>
          simp [RemoteState.end_query, RemoteState.start_query, lookupStr_setStr_self]
        | true =>
          simp [RemoteState.end_query, RemoteState.start_query, lookupStr_setStr_self]
    · rw [remote_fm_hit net s p regex v hhit] at hfirst ⊢
      obtain rfl : v = ms := by simpa using hfirst
      exact remote_fm_hit net2 s p regex _ hhit
  · intro fetch fetch2 s p regex snap iocs m hc hi hmiss hm
    have heval := find_record_matches_eval fetch s p regex snap iocs m hc hi hmiss hm
    rw [heval]
    cases regex with
    | false =>
      rw [find_record_matches, if_neg Bool.false_ne_true]
      simp [LocalState.end_query, lookupStr_setStr_self]
    | true =>
      rw [find_record_matches, if_pos rfl]
      simp [LocalState.end_query, lookupStr_setStr_self]

/-- Claim C4 witness: both halves of the amended statement evaluated at
concrete inputs: a remote search for "q" answered with ["m"], repeated
against an oracle that would now fail; and the snapshot search for "*"
over `exSnapP` repeated. -/
theorem claim_C4_witness :
    (remote_find_record_matches (fun _ _ => none)
        (remote_find_record_matches (fun _ _ => some ["m"]) RemoteState.init
          (some "q") false).1 (some "q") false =
      ((remote_find_record_matches (fun _ _ => some ["m"]) RemoteState.init
          (some "q") false).1, [], some ["m"])) ∧
    (find_record_matches (some Cache.empty)
        (find_record_matches none exStateP (some "*") false).1 (some "*") false =
      ((find_record_matches none exStateP (some "*") false).1, .ok (some ["p"]))) := by
  constructor
  · exact claim_C4_amended.1 (fun _ _ => some ["m"]) (fun _ _ => none)
      RemoteState.init "q" false ["m"] rfl
  · exact claim_C4_amended.2 none (some Cache.empty) exStateP "*" false exSnapP
      [("A", exIocP)] (wcTest "*") rfl rfl rfl rfl

/-- Claim C7 (amended): an absent (null/undefined) pattern is not
searched at all — both backends return undefined immediately.  Only the
live backend substitutes the match-all defaults, sending "*" (glob) or
".*" (regex) as the request pattern for an empty pattern.  The snapshot
backend computes that default but matches with the raw pattern: an empty
glob pattern matches only the empty name, so it returns no PVs, while an
empty regex pattern still matches every name because the empty RegExp
matches everywhere. -/
theorem claim_C7_amended :
    (∀ (fetch : Option Cache) (s : LocalState) (regex : Bool),
       find_record_matches fetch s none regex = (s, .ok none)) ∧
    (∀ (net : String → Bool → Option (List String)) (s : RemoteState) (regex : Bool),
       remote_find_record_matches net s none regex = (s, [], none)) ∧
    (∀ (net : String → Bool → Option (List String)) (s : RemoteState),
       lookupStr "" s.glob_to_pvs = none →
       (remote_find_record_matches net s (some "") false).2.1 = [("*", false)]) ∧
    (∀ (net : String → Bool → Option (List String)) (s : RemoteState),
       lookupStr "" s.regex_to_pvs = none →
       (remote_find_record_matches net s (some "") true).2.1 = [(".*", true)]) ∧
    (∀ n : String, wcTest "" n = decide (n = "")) ∧
    (∀ n : String, (parseRegex "").map (fun r => jsRegexTest r n) = some true) ∧
    (∀ (fetch : Option Cache) (s : LocalState) (snap : Cache)
       (iocs : List (String × IocInfo)),
       s.cache = some snap → snap.iocs = some iocs →
       lookupStr "" s.glob_to_pvs = none →
       (find_record_matches fetch s (some "") false).2 =
         .ok (some (collectMatches iocs (wcTest "")))) := by
  refine ⟨?_, ?_, ?_, ?_, ?_, ?_, ?_⟩
  · intro fetch s regex; rfl
  · intro net s regex; rfl
  · intro net s hmiss
    rcases hnet : net (remote_query_pattern "" false) false with _ | resp
    · rw [remote_fm_miss_none net s "" false hmiss hnet]
      rfl
    · rw [remote_fm_miss_some net s "" false resp hmiss hnet]
      rfl
  · intro net s hmiss
    rcases hnet : net (remote_query_pattern "" true) true with _ | resp
    · rw [remote_fm_miss_none net s "" true hmiss hnet]
      rfl
    · rw [remote_fm_miss_some net s "" true resp hmiss hnet]
      rfl
  · intro n
    rcases n with ⟨d⟩
    cases d with
    | nil => rfl
    | cons c cs =>
      have hne : (⟨c :: cs⟩ : String) ≠ ⟨[]⟩ := by
        intro h
        simpa using congrArg String.data h
      simp [wcTest, globMatch, hne]
  · intro n
    rcases n with ⟨d⟩
    cases d <;> rfl
  · intro fetch s snap iocs hc hi hmiss
    have heval := find_record_matches_eval fetch s "" false snap iocs (wcTest "")
      hc hi hmiss rfl
    rw [heval]

/-- Claim C7 witness: the amended statement evaluated at concrete inputs:
a null pattern on the fresh snapshot store, the empty glob pattern on the
name "x", the empty regex pattern on the name "x", and the empty glob
search over `exSnapX`. -/
theorem claim_C7_witness :
    find_record_matches none LocalState.init none false = (LocalState.init, .ok none) ∧
    wcTest "" "x" = false ∧
    (parseRegex "").map (fun r => jsRegexTest r "x") = some true ∧
    (find_record_matches none exStateX (some "") false).2 = .ok (some []) := by
  refine ⟨claim_C7_amended.1 none LocalState.init false, ?_,
    claim_C7_amended.2.2.2.2.2.1 "x", ?_⟩
  · have h := claim_C7_amended.2.2.2.2.1 "x"
    simpa using h
  · exact claim_C7_amended.2.2.2.2.2.2 none exStateX exSnapX [("A", exIocX)] rfl rfl rfl

/-- Claim C6 (amended): on a fresh store with a loaded snapshot,
update_duplicates commits exactly the mapping from each PV name with at
least two owner occurrences — one occurrence per (IOC, namespace) pair
whose namespace contains the name — to the list of owning IOC names with
that multiplicity; every name with a single occurrence is absent.  An IOC
exposing a name in both namespaces therefore counts twice, and such a
name is reported with that IOC listed twice even though only one distinct
IOC owns it.  For IOCs {A: [pv1, pv2], B: [pv2, pv3]}, each name in one
namespace only, the committed map is exactly {pv2: [A, B]}. -/
theorem claim_C6_amended (fetch : Option Cache) (s : LocalState) (snap : Cache)
    (iocs : List (String × IocInfo))
    (hd : s.duplicates = []) (hc : s.cache = some snap) (hi : snap.iocs = some iocs) :
    (∀ pv, lookupStr pv (update_duplicates fetch s).1.duplicates =
       if 2 ≤ (ownersOf iocs pv).length then some (ownersOf iocs pv) else none) ∧
    (update_duplicates none exStateAB).1.duplicates = [("pv2", ["A", "B"])] := by
  constructor
  · intro pv
    have hres : (update_duplicates fetch s).1.duplicates = computeDupes iocs := by
      simp [update_duplicates, hd, load_cached_whatrecord_data, hc, hi]
    rw [hres, lookupStr_computeDupes]
  · rfl

/-- Claim C6 witness: the amended characterization evaluated on the
example snapshot {A: [pv1, pv2], B: [pv2, pv3]}: pv2 maps to [A, B],
pv1 and pv3 are absent. -/
theorem claim_C6_witness :
    lookupStr "pv2" (update_duplicates none exStateAB).1.duplicates = some ["A", "B"] ∧
    lookupStr "pv1" (update_duplicates none exStateAB).1.duplicates = none ∧
    lookupStr "pv3" (update_duplicates none exStateAB).1.duplicates = none := by
  have h := claim_C6_amended none exStateAB exSnapAB [("A", exIocA2), ("B", exIocB2)]
    rfl rfl rfl
  exact ⟨(h.1 "pv2").trans (by decide), (h.1 "pv1").trans (by decide),
    (h.1 "pv3").trans (by decide)⟩

/-- Claim C10: for every PV name not yet in the result cache, the result
of the snapshot backend's get_record_info committed under the name is the
single-entry result built from the LAST hit in scan order — IOCs in
snapshot order, and within one IOC the traditional namespace then the PVA
namespace — each hit having overwritten the previously committed result;
when no source holds the name, nothing is committed.  Every committed
result holds exactly one entry. -/
theorem claim_C10_last_hit_wins (fetch : Option Cache) (s : LocalState) (snap : Cache)
    (iocs : List (String × IocInfo)) (record_name : String)
    (hfresh : lookupStr record_name s.record_info = none)
    (hc : s.cache = some snap) (hi : snap.iocs = some iocs) :
    lookupStr record_name (get_record_info fetch s record_name).1.record_info =
      (recordHits iocs record_name).getLast?.map (mkRecordInfo record_name) ∧
    (∀ v, lookupStr record_name (get_record_info fetch s record_name).1.record_info =
        some v → v.info.length = 1) := by
  have hmain : lookupStr record_name (get_record_info fetch s record_name).1.record_info =
      (recordHits iocs record_name).getLast?.map (mkRecordInfo record_name) := by
    simp only [get_record_info, hfresh, load_cached_whatrecord_data, hc, hi]
    rw [scan_record_info_lookup, hfresh, Option.or_none]
  refine ⟨hmain, ?_⟩
  intro v hv
  rw [hmain] at hv
  cases hlast : (recordHits iocs record_name).getLast? with
  | none => rw [hlast] at hv; simp at hv
  | some w =>
    rw [hlast] at hv
    simp only [Option.map_some'] at hv
    obtain rfl : mkRecordInfo record_name w = v := Option.some.inj hv
    rfl

/-- Claim C10 witness: the scan over `exSnapCD` — IOC C holding "pv" in
its traditional namespace, then IOC D holding it in both — commits for
"pv" exactly the single-entry result of the last scanned source, D's PVA
namespace. -/
theorem claim_C10_witness :
    lookupStr "pv" (get_record_info none exStateCD "pv").1.record_info =
      some { pv_name := "pv", present := true,
             info := [{ name := "pv", ioc := ⟨"D"⟩,
                        record := { definition := none, instance_ := none },
                        pva_group := some exGrp }] } := by
  have h := (claim_C10_last_hit_wins none exStateCD exSnapCD exIocsCD "pv" rfl rfl rfl).1
  rw [h]
  rfl

/-- Claim C9: for a PV name not yet cached, present in exactly one IOC's
traditional database and in no PVA database, the snapshot backend's
get_record_info commits under the name a result with present = true and
exactly one entry carrying that IOC's metadata, the record instance, and
the record-type definition looked up from that IOC's database-definition
table — null when the definition table is absent or the record type is
not registered in it. -/
theorem claim_C9_single_hit_roundtrip (fetch : Option Cache) (s : LocalState) (snap : Cache)
    (pre post : List (String × IocInfo)) (iname : String) (ii : IocInfo)
    (r : RecordInstance) (record_name : String)
    (hfresh : lookupStr record_name s.record_info = none)
    (hc : s.cache = some snap)
    (hi : snap.iocs = some (pre ++ (iname, ii) :: post))
    (hr : lookupStr record_name ii.ioc.shell_state.database = some r)
    (hpva : lookupStr record_name ii.ioc.shell_state.pva_database = none)
    (hpre3 : ∀ q ∈ pre, lookupStr record_name q.2.ioc.shell_state.database = none)
    (hpre4 : ∀ q ∈ pre, lookupStr record_name q.2.ioc.shell_state.pva_database = none)
    (hpost3 : ∀ q ∈ post, lookupStr record_name q.2.ioc.shell_state.database = none)
    (hpost4 : ∀ q ∈ post, lookupStr record_name q.2.ioc.shell_state.pva_database = none) :
    lookupStr record_name (get_record_info fetch s record_name).1.record_info =
      some { pv_name := record_name, present := true,
             info := [{ name := record_name, ioc := ii.md,
                        record := { definition :=
                                      ii.ioc.shell_state.database_definition.bind
                                        (fun dd => lookupStr r.record_type dd.record_types),
                                    instance_ := some r },
                        pva_group := none }] } := by
  have hmain : lookupStr record_name (get_record_info fetch s record_name).1.record_info =
      (recordHits (pre ++ (iname, ii) :: post) record_name).getLast?.map
        (mkRecordInfo record_name) := by
    simp only [get_record_info, hfresh, load_cached_whatrecord_data, hc, hi]
    rw [scan_record_info_lookup, hfresh, Option.or_none]
  have hhits : recordHits (pre ++ (iname, ii) :: post) record_name =
      [v3_whatrec record_name ii r] := by
    rw [recordHits_append, recordHits_cons,
      recordHits_eq_nil record_name pre hpre3 hpre4,
      recordHits_eq_nil record_name post hpost3 hpost4]
    unfold iocHits
    rw [hr, hpva]
    rfl
  rw [hmain, hhits]
  rfl

/-- Claim C9 witness: over `exSnapC` — the single IOC C exposing the
record "pv" of type "ai" in its traditional database, with "ai"
registered in its database-definition table — get_record_info commits a
present, single-entry result carrying C's metadata, the instance, and
the "ai" definition. -/
theorem claim_C9_witness :
    lookupStr "pv" (get_record_info none exStateC "pv").1.record_info =
      some { pv_name := "pv", present := true,
             info := [{ name := "pv", ioc := ⟨"C"⟩,
                        record := { definition := some ⟨"aidef"⟩,
                                    instance_ := some exRec },
                        pva_group := none }] } := by
  have h := claim_C9_single_hit_roundtrip none exStateC exSnapC [] [] "C" exIocC
    exRec "pv" rfl rfl rfl rfl rfl
    (by intro q hq; cases hq) (by intro q hq; cases hq)
    (by intro q hq; cases hq) (by intro q hq; cases hq)
  rw [h]
  rfl

end Whatrecord
